import Mathlib

/-!
Verification development for the NBA game-scoring engine
(`src/utils/scoring_functions.py`, `src/utils/config.py`,
`src/utils/game_analyzer.py`, `src/data/data_fetcher.py`).

The engine is embedded shallowly: pandas tables become lists of records, a
pandas cell that may hold NaN, a string or a number becomes the `Cell` type,
IEEE NaN propagating through scores is represented by `Option ℚ` (`none` is
NaN, and every comparison against NaN is false, as in Python), and the
in-place mutation that some functions perform on their argument tables is
made explicit by returning the final state of the table.  The external
stats provider (nba_api) is modelled as an explicit environment `Env`
supplying the play-by-play table, the recent-games table and the box score
that the Python code fetches.
-/

namespace NBA

set_option maxRecDepth 16000
set_option maxHeartbeats 1600000

/-- A pandas cell of the SCOREMARGIN column: missing (NaN), a raw string,
or a numeric value. -/
inductive Cell where
  | na : Cell
  | strv : String → Cell
  | numv : ℚ → Cell
deriving DecidableEq, Repr

/-- One row of a play-by-play table.  `pctimeseconds` and `periodscore` are
derived columns that start absent and are added in place by
`calculate_margin_and_star_performance_score` and `calculate_period_score`. -/
structure PlayEvent where
  period : Nat
  eventmsgtype : Int
  scoremargin : Cell
  pctimestring : Option String
  score : Option String
  pctimeseconds : Option ℚ := none
  periodscore : Option ℚ := none
deriving DecidableEq, Repr

/-- One row of the recent-games (team box line) table. `none` models NaN. -/
structure TeamRow where
  game_id : String
  fg_pct : Option ℚ
  fg3_pct : Option ℚ
deriving DecidableEq, Repr

/-- One player row of the traditional box score; only the PTS column is
read by the engine. `none` models NaN. -/
structure BoxRow where
  pts : Option ℚ
deriving DecidableEq, Repr

/-- The external stats provider, as seen by the code: play-by-play per
game id, the league-wide recent-games table, and the traditional box score
per game id (`none` models a fetch that raises). -/
structure Env where
  playByPlay : String → List PlayEvent
  recentGames : List TeamRow
  boxscore : String → Option (List BoxRow)

/-- A value that may be IEEE NaN: `none` is NaN. -/
abbrev RQ := Option ℚ

/-- NaN-propagating addition. -/
def rqAdd : RQ → RQ → RQ
  | some a, some b => some (a + b)
  | _, _ => none

/-- Python `x >= c` where `x` may be NaN: NaN compares false. -/
def rqGe (x : RQ) (c : ℚ) : Bool :=
  match x with
  | some a => decide (c ≤ a)
  | none => false

/-- Python `x > y` where either side may be NaN: NaN compares false. -/
def rqGT (x y : RQ) : Bool :=
  match x, y with
  | some a, some b => decide (b < a)
  | _, _ => false

/-- Python `max` over a nonempty list: keeps the current maximum and
replaces it only when a later item compares strictly greater (hence a NaN
head sticks).  The `[]` case is unreachable at every use site. -/
def pyMaxList (l : List RQ) : RQ :=
  match l with
  | [] => some 0
  | h :: t => t.foldl (fun m x => if rqGT x m then x else m) h

/-- Python `max(a, b)`. -/
def pyMax2 (a b : RQ) : RQ := if rqGT b a then b else a

/-- Python `str.strip()` of whitespace, on the character list. -/
def trimChars (cs : List Char) : List Char :=
  ((cs.dropWhile Char.isWhitespace).reverse.dropWhile Char.isWhitespace).reverse

/-- Python `str.split(sep)` for a one-character separator: splits on every
occurrence, keeping empty pieces (so `"".split(sep) = ['']`). -/
def splitCh (sep : Char) : List Char → List (List Char)
  | [] => [[]]
  | c :: cs =>
    match splitCh sep cs with
    | [] => [[]]
    | h :: t => if c = sep then [] :: h :: t else (c :: h) :: t

/-- Python `int(s)` on a string: optional sign then decimal digits
(whitespace stripped; numeric-literal underscores are not modelled). -/
def pyInt (s : String) : Option Int :=
  let t := trimChars s.toList
  let core : List Char → Option Int := fun ds =>
    if ds ≠ [] ∧ ds.all Char.isDigit then
      some (ds.foldl (fun a c => a * 10 + ((c.toNat : Int) - 48)) 0)
    else none
  match t with
  | '-' :: rest => (core rest).map (fun n => -n)
  | '+' :: rest => core rest
  | _ => core t

/-- Digits-and-a-dot fractional literal as a rational:
`d₁…dₖ.e₁…eₘ ↦ d₁…dₖ + 0.e₁…eₘ`. -/
def digitsToRat (intPart fracPart : List Char) : ℚ :=
  let ip : ℚ := (intPart.foldl (fun a c => a * 10 + ((c.toNat : Int) - 48)) 0 : Int)
  let fp : ℚ := (fracPart.foldl (fun a c => a * 10 + ((c.toNat : Int) - 48)) 0 : Int)
  ip + fp / ((10 : ℚ) ^ fracPart.length)

/-- Python `float(s)` on a string: optional sign, then digits with an
optional fractional part (exponent forms, `inf`/`nan` and numeric-literal
underscores are not modelled; no input in this development uses them). -/
def pyFloat (s : String) : Option ℚ :=
  let t := trimChars s.toList
  let core : List Char → Option ℚ := fun ds =>
    match splitCh '.' ds with
    | [ip] => if ip ≠ [] ∧ ip.all Char.isDigit then some (digitsToRat ip []) else none
    | [ip, fp] =>
        if (ip ≠ [] ∨ fp ≠ []) ∧ ip.all Char.isDigit ∧ fp.all Char.isDigit then
          some (digitsToRat ip fp)
        else none
    | _ => none
  match t with
  | '-' :: rest => (core rest).map (fun q => -q)
  | '+' :: rest => core rest
  | _ => core t

/-- `convert_pctimestring_to_seconds` from `src/utils/scoring_functions.py`:
missing (NaN) or empty clock string gives 0; a two-part `M:SS` string gives
`int(M) * 60 + float(SS)`; anything else (wrong arity, unparsable parts,
which raise in Python and are caught) gives 0. -/
def convert_pctimestring_to_seconds (pctimestring : Option String) : ℚ :=
  match pctimestring with
  | none => 0
  | some s =>
    if s = "" then 0
    else
      match splitCh ':' s.toList with
      | [a, b] =>
        match pyInt (String.mk a), pyFloat (String.mk b) with
        | some m, some sec => (m : ℚ) * 60 + sec
        | _, _ => 0
      | _ => 0

/-- `period_df.loc[period_df[col] == 'TIE', col] = 0`: the string `'TIE'`
is overwritten with the number 0. -/
def tieZero (c : Cell) : Cell :=
  if c = Cell.strv "TIE" then Cell.numv 0 else c

/-- `.fillna(0)`: NaN becomes the number 0. -/
def fillnaZero (c : Cell) : Cell :=
  if c = Cell.na then Cell.numv 0 else c

/-- `.astype(float)` on one cell: numbers pass through, strings are parsed
(`none` models the ValueError raised on an unparsable string; NaN cannot
reach this point because `fillna(0)` is applied first). -/
def astypeFloat (c : Cell) : Option ℚ :=
  match c with
  | Cell.numv q => some q
  | Cell.strv s => pyFloat s
  | Cell.na => some 0

/-- Sequences a list of options; `none` as soon as one entry is `none`. -/
def seqOption : List (Option ℚ) → Option (List ℚ)
  | [] => some []
  | none :: _ => none
  | some v :: xs => (seqOption xs).map (fun vs => v :: vs)

/-- The `'TIE' → 0` overwrite applied to the whole margin column. -/
def tieMap (df : List PlayEvent) : List PlayEvent :=
  df.map (fun e => { e with scoremargin := tieZero e.scoremargin })

/-- `fillna(0).astype(float)` over the margin column; `none` models the
ValueError of `astype` on an unparsable string. -/
def coerceMargins (df : List PlayEvent) : Option (List ℚ) :=
  seqOption (df.map (fun e => astypeFloat (fillnaZero e.scoremargin)))

/-- Writing the coerced floats back into the margin column and adding the
PERIODSCORE column of their absolute values. -/
def withPeriodscore (df : List PlayEvent) (vals : List ℚ) : List PlayEvent :=
  (df.zip vals).map (fun p =>
    { p.1 with scoremargin := Cell.numv p.2, periodscore := some (abs p.2) })

/-- `filtered_df = period_df.dropna(subset=['SCORE'])`. -/
def dropnaScore (df : List PlayEvent) : List PlayEvent :=
  df.filter (fun e => e.score.isSome)

/-- The PERIODSCORE mean of the rows that survived the SCORE dropna;
0 for an empty frame. -/
def averagePeriodscore (filtered : List PlayEvent) : ℚ :=
  if filtered = [] then 0
  else (filtered.map (fun e => e.periodscore.getD 0)).sum / (filtered.length : ℚ)

/-- The period-closeness curve: mean ≤ 7 scores full weight, mean > 20
scores 0, linear in between. -/
def periodCurve (weight avg : ℚ) : ℚ :=
  if avg ≤ 7 then weight * 100
  else if 20 < avg then 0
  else weight * 100 * (20 - avg) / 13

/-- `calculate_period_score` from `src/utils/scoring_functions.py`.
Returns the final state of the table passed in (the source mutates its
argument: `'TIE'` entries are overwritten with 0, the margin column is
float-coerced in place, and a PERIODSCORE column is added) together with
`(average_periodscore, period_score)`.  An empty table returns `(0, 0)`;
a float-coercion failure is the caught exception path, which also returns
`(0, 0)` but leaves the `'TIE'` overwrite already applied. -/
def calculate_period_score (period_df : List PlayEvent) (weight : ℚ) :
    List PlayEvent × ℚ × ℚ :=
  if period_df = [] then (period_df, 0, 0)
  else
    let df1 := tieMap period_df
    match coerceMargins df1 with
    | none => (df1, 0, 0)
    | some vals =>
      let df2 := withPeriodscore df1 vals
      let avg := averagePeriodscore (dropnaScore df2)
      (df2, avg, periodCurve weight avg)

/-- The margin value the lead-change walk sees for one cell: `'TIE'` and
NaN are skipped, other strings are `float`-parsed (a ValueError skips the
row), numbers pass through. -/
def cellFloat (c : Cell) : Option ℚ :=
  match c with
  | Cell.na => none
  | Cell.strv s => if s = "TIE" then none else pyFloat s
  | Cell.numv q => some q

/-- One step of the lead-change walk: state is (count, previous margin). -/
def leadStep (st : Nat × Option ℚ) (c : Cell) : Nat × Option ℚ :=
  match cellFloat c with
  | none => st
  | some m =>
    match st.2 with
    | none => (st.1, some m)
    | some p =>
      (if (p < 0 ∧ 0 < m) ∨ (0 < p ∧ m < 0) then st.1 + 1 else st.1, some m)

/-- `calculate_lead_changes_score` from `src/utils/scoring_functions.py`:
walks the margin column in order counting sign flips, then applies the
piecewise curve (≥ 12 flips full, ≤ 5 flips zero, linear between). -/
def calculate_lead_changes_score (df : List PlayEvent) (weight : ℚ) : Nat × ℚ :=
  let r := df.foldl (fun st e => leadStep st e.scoremargin) (0, none)
  let lead_changes := r.1
  let lead_changes_score : ℚ :=
    if 12 ≤ lead_changes then weight * 100
    else if lead_changes ≤ 5 then 0
    else weight * 100 * ((lead_changes : ℚ) - 5) / 7
  (lead_changes, lead_changes_score)

/-- `df['PERIOD'].unique()`: first-occurrence order of the distinct periods. -/
def uniquePeriods (df : List PlayEvent) : List Nat :=
  df.foldl (fun acc e => if e.period ∈ acc then acc else acc ++ [e.period]) []

/-- The `last_margin` value computed for one period's table in
`calculate_buzzer_beater_score`: the last row's margin with `'TIE'` → 0,
an unparsable string → 0, and NaN kept as NaN (`none`). -/
def lastMarginOf (pdf : List PlayEvent) : Option ℚ :=
  match pdf.getLast? with
  | none => none
  | some e =>
    match e.scoremargin with
    | Cell.strv s => if s = "TIE" then some 0 else some ((pyFloat s).getD 0)
    | Cell.numv q => some q
    | Cell.na => none

/-- `calculate_buzzer_beater_score` from `src/utils/scoring_functions.py`.
The flag is set when, in some period, an event with at most 24 clock
seconds remaining has EVENTMSGTYPE 1, 2 or 3.  The score then depends on
the last margin of the last period iterated (NaN margin falls through both
absolute-value comparisons to the 0.5 branch, as in Python); with no flag
the score is 0, and an empty table returns `(false, 0)`. -/
def calculate_buzzer_beater_score (df : List PlayEvent) (weight : ℚ) : Bool × ℚ :=
  let buzzer_beater := (uniquePeriods df).any (fun p =>
    (df.filter (fun e => e.period = p)).any (fun e =>
      decide (convert_pctimestring_to_seconds e.pctimestring ≤ 24) &&
        (e.eventmsgtype = 1 ∨ e.eventmsgtype = 2 ∨ e.eventmsgtype = 3)))
  let last_margin : Option ℚ :=
    match (uniquePeriods df).getLast? with
    | none => none
    | some p => lastMarginOf (df.filter (fun e => e.period = p))
  let buzzer_beater_score : ℚ :=
    if buzzer_beater then
      match last_margin with
      | some m =>
        if |m| ≤ 3 then weight * 100
        else if |m| ≤ 5 then weight * 100 * (8 / 10)
        else weight * 100 * (5 / 10)
      | none => weight * 100 * (5 / 10)
    else 0
  (buzzer_beater, buzzer_beater_score)

/-- The per-row FG% curve of `get_fg_fg3_pct_score` (NaN propagates:
both comparisons are false for NaN, and the linear branch stays NaN). -/
def fgCurveRow (fg_pct : Option ℚ) (weight : ℚ) : RQ :=
  match fg_pct with
  | none => none
  | some v =>
    if 5 / 10 ≤ v then some (weight * 100)
    else if v ≤ 4 / 10 then some 0
    else some (weight * 100 * (v - 4 / 10) / (1 / 10))

/-- The per-row 3PT% curve of `get_fg_fg3_pct_score`. -/
def fg3CurveRow (fg3_pct : Option ℚ) (weight : ℚ) : RQ :=
  match fg3_pct with
  | none => none
  | some v =>
    if 35 / 100 ≤ v then some (weight * 100)
    else if v ≤ 25 / 100 then some 0
    else some (weight * 100 * (v - 25 / 100) / (1 / 10))

/-- `get_fg_fg3_pct_score` from `src/utils/scoring_functions.py`: over the
rows of the recent-games table belonging to `game_id`, scores each team's
FG% and 3PT% and returns the two per-metric maxima and their maximum.
An empty table or an absent game id returns `(0, 0, 0)`. -/
def get_fg_fg3_pct_score (recent_games : List TeamRow) (game_id : String)
    (weight : ℚ) : RQ × RQ × RQ :=
  if recent_games = [] ∨ ¬ game_id ∈ recent_games.map (fun r => r.game_id) then
    (some 0, some 0, some 0)
  else
    let game_rows := recent_games.filter (fun r => r.game_id = game_id)
    let fg_pct_scores := game_rows.map (fun r => fgCurveRow r.fg_pct weight)
    let fg3_pct_scores := game_rows.map (fun r => fg3CurveRow r.fg3_pct weight)
    let max_fg_pct_score := if fg_pct_scores = [] then some 0 else pyMaxList fg_pct_scores
    let max_fg3_pct_score := if fg3_pct_scores = [] then some 0 else pyMaxList fg3_pct_scores
    (max_fg_pct_score, max_fg3_pct_score, pyMax2 max_fg_pct_score max_fg3_pct_score)

/-- `pbp_df['PERIOD'].max()` as used in the margin scorer and the
orchestrator: `none` for an empty column (pandas NaN). -/
def maxPeriod (df : List PlayEvent) : Option Nat :=
  match df.map (fun e => e.period) with
  | [] => none
  | h :: t => some (t.foldl max h)

/-- Adding the PCTIMESECONDS column in place. -/
def addSecondsColumn (df : List PlayEvent) : List PlayEvent :=
  df.map (fun e =>
    { e with pctimeseconds := some (convert_pctimestring_to_seconds e.pctimestring) })

/-- The rows the margin scorer averages over:
`pbp_df[(pbp_df['PERIOD'] == max_period) & (pbp_df['PCTIMESECONDS'] >= 300)]`,
i.e. events of the highest-numbered period whose period clock still shows
at least 300 seconds remaining. -/
def marginWindow (df : List PlayEvent) : List PlayEvent :=
  let dfs := addSecondsColumn df
  match maxPeriod dfs with
  | none => []
  | some mp => dfs.filter (fun e =>
      e.period = mp && decide ((300 : ℚ) ≤ e.pctimeseconds.getD 0))

/-- `filtered_pbp_df['SCOREMARGIN'].abs().mean()` on the cells of the
margin window, for a nonempty window containing no raw strings: NaN cells
are skipped; a window of only NaN cells has a NaN mean (`none`). -/
def absMeanMargin (cells : List Cell) : RQ :=
  let vals := cells.filterMap (fun c =>
    match c with
    | Cell.numv q => some q
    | _ => none)
  match vals with
  | [] => none
  | _ => some ((vals.map (fun q => |q|)).sum / (vals.length : ℚ))

/-- Whether a cell still holds a raw string (`abs()` raises on those). -/
def isStrvCell : Cell → Bool
  | Cell.strv _ => true
  | _ => false

/-- The margin-closeness curve of the margin scorer: average margin ≥ 15
scores 0, ≤ 5 scores full weight, linear in between; NaN propagates. -/
def marginCurve (weight_margin : ℚ) : RQ → RQ
  | none => none
  | some a =>
    if 15 ≤ a then some 0
    else if a ≤ 5 then some (weight_margin * 100)
    else some (weight_margin * 100 * (15 - a) / 10)

/-- The star-performance curve of the margin scorer: best PTS ≥ 35 scores
full weight, ≤ 20 scores 0, linear in between; NaN propagates. -/
def starCurve (weight_star : ℚ) : RQ → RQ
  | none => none
  | some p =>
    if 35 ≤ p then some (weight_star * 100)
    else if p ≤ 20 then some 0
    else some (weight_star * 100 * (p - 20) / 15)

/-- `boxscore_df['PTS'].max()`: pandas max skips NaN; an empty or all-NaN
column yields NaN (`none`). -/
def seriesMax (l : List (Option ℚ)) : Option ℚ :=
  match l.filterMap id with
  | [] => none
  | h :: t => some (t.foldl max h)

/-- `calculate_margin_and_star_performance_score` from
`src/utils/scoring_functions.py`.  The function first fetches the game's
traditional box score from the provider itself (`env.boxscore`; `none`
models a fetch that raises, caught and degraded to all zeros), then adds a
PCTIMESECONDS column to the play-by-play table in place, averages the
absolute margins of the final-period events with at least 300 clock
seconds remaining, and scores closeness and the best individual PTS
total.  A raw string among the window's margins makes `.abs()` raise,
also caught and degraded to zeros (with the seconds column already
added).  The first component is the final state of the table passed in;
the rest is `(average_margin, margin_score, max_points,
star_performance_score)`. -/
def calculate_margin_and_star_performance_score (env : Env)
    (pbp_df : List PlayEvent) (game_id : String) (weight_margin weight_star : ℚ) :
    List PlayEvent × RQ × RQ × RQ × RQ :=
  match env.boxscore game_id with
  | none => (pbp_df, some 0, some 0, some 0, some 0)
  | some boxscore_df =>
    let dfs := addSecondsColumn pbp_df
    let filtered := marginWindow pbp_df
    if filtered.any (fun e => isStrvCell e.scoremargin) then
      (dfs, some 0, some 0, some 0, some 0)
    else
      let average_margin : RQ :=
        if filtered = [] then some 0
        else absMeanMargin (filtered.map (fun e => e.scoremargin))
      let max_points : RQ := seriesMax (boxscore_df.map (fun b => b.pts))
      (dfs, average_margin, marginCurve weight_margin average_margin,
        max_points, starCurve weight_star max_points)

/-- `get_grade` from `src/utils/scoring_functions.py`: fixed thresholds,
applied with Python float comparison (a NaN total fails every `>=` and
lands on `'D'`). -/
def get_grade (total_score : RQ) : String :=
  if rqGe total_score 93 then "A+"
  else if rqGe total_score 85 then "A"
  else if rqGe total_score 80 then "B+"
  else if rqGe total_score 75 then "B"
  else if rqGe total_score 70 then "C+"
  else if rqGe total_score 65 then "C"
  else "D"

/-- The floor of a rational, written directly on the numerator and
denominator so that it evaluates by kernel reduction. -/
def ratFloor (q : ℚ) : ℤ :=
  Int.fdiv q.num (q.den : ℤ)

/-- Round-half-even to an integer, the rounding Python's `round` applies
at an exact decimal tie. -/
def roundHalfEven (q : ℚ) : ℤ :=
  let f := ratFloor q
  let r := q - (f : ℚ)
  if r < 1 / 2 then f
  else if 1 / 2 < r then f + 1
  else if f % 2 = 0 then f else f + 1

/-- Python `round(x, 1)` (on the exact rational value; the binary-double
representation error of CPython floats is not modelled — every rounding
in this development is either away from a tie, where the two agree, or at
a tie whose double representation rounds the same way). NaN stays NaN. -/
def pyRound1 (x : RQ) : RQ :=
  match x with
  | none => none
  | some q => some ((roundHalfEven (q * 10) : ℚ) / 10)

/-- The in-place effect of `process_play_by_play_data`
(`src/data/data_fetcher.py`) on the table passed to it: the SCOREMARGIN
column has `'TIE'` replaced by `'0'` and is then coerced with
`pd.to_numeric(errors='coerce')`, so every cell ends up numeric or NaN.
The function's return value (a per-period score aggregate) is never used
by `analyze_game` and is not modelled; only this mutation of the shared
table is observable downstream. -/
def process_play_by_play_data (pbp_df : List PlayEvent) : List PlayEvent :=
  pbp_df.map (fun e =>
    { e with scoremargin :=
        match e.scoremargin with
        | Cell.na => Cell.na
        | Cell.numv q => Cell.numv q
        | Cell.strv s =>
          match pyFloat (if s = "TIE" then "0" else s) with
          | some q => Cell.numv q
          | none => Cell.na })

/-- The weight configuration of `src/utils/config.py`: four per-period
weights, six scalar component weights, and the max-period pool factor by
which the period weights are scaled. -/
structure WeightConfig where
  pw1 : ℚ
  pw2 : ℚ
  pw3 : ℚ
  pw4 : ℚ
  extra_period_weight : ℚ
  lead_change_weight : ℚ
  buzzer_beater_weight : ℚ
  fg3_pct_weight : ℚ
  star_performance_weight : ℚ
  margin_weight : ℚ
  max_total_score : ℚ
deriving DecidableEq, Repr

/-- `WEIGHT_CONFIG` from `src/utils/config.py`. -/
def WEIGHT_CONFIG : WeightConfig :=
  { pw1 := 33 / 100, pw2 := 33 / 100, pw3 := 34 / 100, pw4 := 0,
    extra_period_weight := 5 / 100, lead_change_weight := 5 / 100,
    buzzer_beater_weight := 0, fg3_pct_weight := 5 / 100,
    star_performance_weight := 10 / 100, margin_weight := 25 / 100,
    max_total_score := 50 / 100 }

/-- `ADJUSTED_PERIOD_WEIGHTS` from `src/utils/config.py`: each period
weight scaled by `max_total_score`, as an association list over periods
1–4. -/
def adjustedPeriodWeights (cfg : WeightConfig) : List (Nat × ℚ) :=
  [(1, cfg.pw1 * cfg.max_total_score), (2, cfg.pw2 * cfg.max_total_score),
   (3, cfg.pw3 * cfg.max_total_score), (4, cfg.pw4 * cfg.max_total_score)]

/-- One iteration of the orchestrator's period loop: the period's rows are
copied out of the shared table (so the scorer's mutation stays local) and
the period's score is added when the slice is nonempty. -/
def periodTerm (pbp_df : List PlayEvent) (p : Nat) (w : ℚ) : ℚ :=
  let period_df := pbp_df.filter (fun e => e.period = p)
  if period_df = [] then 0 else (calculate_period_score period_df w).2.2

/-- The raw (unrounded) component scores the orchestrator sums, computed
from the play-by-play table after `process_play_by_play_data` has
numericized its margin column in place. -/
structure RawScores where
  period_score_total : ℚ
  extra_periods_score : ℚ
  lead_changes_score : ℚ
  buzzer_beater_score : ℚ
  fg3_pct_score : RQ
  margin_score : RQ
  star_performance_score : RQ
  average_margin : RQ

/-- The scorer pipeline of `analyze_game` on a nonempty play-by-play
table: processing mutates the margin column, the period loop runs over
`ADJUSTED_PERIOD_WEIGHTS`, and the remaining scorers run on the shared
mutated table. -/
def gameScores (cfg : WeightConfig) (env : Env) (game_id : String) : RawScores :=
  let pbp1 := process_play_by_play_data (env.playByPlay game_id)
  let period_score_total :=
    ((adjustedPeriodWeights cfg).map (fun pw => periodTerm pbp1 pw.1 pw.2)).sum
  let num_periods := maxPeriod pbp1
  let extra_periods_score : ℚ :=
    match num_periods with
    | some n => if 4 < n then cfg.extra_period_weight * 100 else 0
    | none => 0
  let lc := calculate_lead_changes_score pbp1 cfg.lead_change_weight
  let bb := calculate_buzzer_beater_score pbp1 cfg.buzzer_beater_weight
  let fg := get_fg_fg3_pct_score env.recentGames game_id cfg.fg3_pct_weight
  let ms := calculate_margin_and_star_performance_score env pbp1 game_id
    cfg.margin_weight cfg.star_performance_weight
  { period_score_total := period_score_total,
    extra_periods_score := extra_periods_score,
    lead_changes_score := lc.2,
    buzzer_beater_score := bb.2,
    fg3_pct_score := fg.2.2,
    margin_score := ms.2.2.1,
    star_performance_score := ms.2.2.2.2,
    average_margin := ms.2.1 }

/-- The orchestrator's unrounded Total Score: the sum of all component
sub-scores (NaN-propagating, as in Python float arithmetic). -/
def rawTotal (cfg : WeightConfig) (env : Env) (game_id : String) : RQ :=
  let s := gameScores cfg env game_id
  rqAdd (rqAdd (rqAdd (some (s.period_score_total + s.extra_periods_score +
    s.lead_changes_score + s.buzzer_beater_score)) s.fg3_pct_score)
    s.margin_score) s.star_performance_score

/-- The record `analyze_game` returns, with the fields it populates. -/
structure GameResult where
  game_id : String
  game_date : String
  teams : String
  period_scores : RQ
  extra_periods : RQ
  lead_changes : RQ
  buzzer_beater : RQ
  fg3_pct : RQ
  star_performance : RQ
  margin : RQ
  total_score : RQ
  grade : String
  average_margin : RQ
deriving DecidableEq, Repr

/-- `analyze_game` from `src/utils/game_analyzer.py`: with no
play-by-play obtainable it returns the zeroed record with grade `'N/A'`;
otherwise it runs the scorer pipeline, sums the sub-scores, grades the
unrounded total and reports every numeric field rounded to one decimal. -/
def analyze_game (cfg : WeightConfig) (env : Env)
    (game_id game_date matchup : String) : GameResult :=
  if env.playByPlay game_id = [] then
    { game_id := game_id, game_date := game_date, teams := matchup,
      period_scores := some 0, extra_periods := some 0, lead_changes := some 0,
      buzzer_beater := some 0, fg3_pct := some 0, star_performance := some 0,
      margin := some 0, total_score := some 0, grade := "N/A",
      average_margin := some 0 }
  else
    let s := gameScores cfg env game_id
    let total := rawTotal cfg env game_id
    { game_id := game_id, game_date := game_date, teams := matchup,
      period_scores := pyRound1 (some s.period_score_total),
      extra_periods := pyRound1 (some s.extra_periods_score),
      lead_changes := pyRound1 (some s.lead_changes_score),
      buzzer_beater := pyRound1 (some s.buzzer_beater_score),
      fg3_pct := pyRound1 s.fg3_pct_score,
      star_performance := pyRound1 s.star_performance_score,
      margin := pyRound1 s.margin_score,
      total_score := pyRound1 total,
      grade := get_grade total,
      average_margin := pyRound1 s.average_margin }

/-- The averaging window asserted by the specification's margin claim:
events of the final (highest-numbered) period occurring in the last 5
minutes of that period, i.e. with at most 300 seconds remaining on the
period clock.  Stated from the claim's words, for comparison with
`marginWindow`, which the code actually uses. -/
def lastFiveMinutesWindow (df : List PlayEvent) : List PlayEvent :=
  let dfs := addSecondsColumn df
  match maxPeriod dfs with
  | none => []
  | some mp => dfs.filter (fun e =>
      e.period = mp && decide (e.pctimeseconds.getD 0 ≤ 300))

/-- The "average margin" the specification describes: the mean absolute
margin over the last-five-minutes window (0 for an empty window). -/
def lastFiveAvgMarginSpec (df : List PlayEvent) : RQ :=
  if lastFiveMinutesWindow df = [] then some 0
  else absMeanMargin ((lastFiveMinutesWindow df).map (fun e => e.scoremargin))

/-- Modelled from the spec: the upstream play-by-play EVENTMSGTYPE coding,
which the repository relies on but never defines.  The spec's data model
lists the event codes as "shot made/missed/free-throw", in the standard
coding's order: 1 = made shot, 2 = missed shot, 3 = free throw.  A
scoring-type event in the spec's sense is a made shot or a free throw. -/
def isScoringTypeSpec (t : Int) : Bool :=
  t = 1 ∨ t = 3

/-- Well-formedness of one game's externally supplied inputs, as the
bounded-score claim assumes it: the game's recent-games rows carry actual
shooting percentages, a successfully fetched box score has at least one
recorded PTS value, and a nonempty margin-scorer window has at least one
numeric margin.  Each condition excludes exactly one way an IEEE NaN could
enter the total. -/
def wellFormedInput (env : Env) (game_id : String) : Bool :=
  env.recentGames.all (fun r =>
    !(r.game_id = game_id) || (r.fg_pct.isSome && r.fg3_pct.isSome)) &&
  (match env.boxscore game_id with
   | none => true
   | some bs => bs.any (fun b => b.pts.isSome)) &&
  (let w := marginWindow (process_play_by_play_data (env.playByPlay game_id))
   w.isEmpty || w.any (fun e =>
     match e.scoremargin with
     | Cell.numv _ => true
     | _ => false))

/-- Shorthand for building one play-by-play row. -/
def ev (p : Nat) (t : Int) (m : Cell) (clock : String) (sc : Option String) :
    PlayEvent :=
  { period := p, eventmsgtype := t, scoremargin := m,
    pctimestring := some clock, score := sc }

/-- Three regulation periods of five events each with the margin
alternating between +1 and −1 (14 sign flips, every period dead even). -/
def regulationEvents : List PlayEvent :=
  (([1, -1, 1, -1, 1] : List ℚ).map (fun m =>
    ev 1 1 (Cell.numv m) "10:00" (some "2 - 2"))) ++
  (([-1, 1, -1, 1, -1] : List ℚ).map (fun m =>
    ev 2 1 (Cell.numv m) "10:00" (some "4 - 4"))) ++
  (([1, -1, 1, -1, 1] : List ℚ).map (fun m =>
    ev 3 1 (Cell.numv m) "10:00" (some "6 - 6")))

/-- Game A: the three even regulation periods followed by an overtime
period whose 50 margin-window events average 391/50 = 7.82; with a 35-PTS
star and a 50% shooting row the exact total comes to 92.95. -/
def eventsA : List PlayEvent :=
  regulationEvents ++
  ((List.replicate 41 (8 : ℚ) ++ List.replicate 9 (7 : ℚ)).map (fun m =>
    ev 5 1 (Cell.numv m) "5:00" (some "9 - 9")))

/-- The provider state for game A. -/
def envA : Env :=
  { playByPlay := fun _ => eventsA,
    recentGames := [{ game_id := "G1", fg_pct := some (1 / 2), fg3_pct := some (1 / 5) }],
    boxscore := fun _ => some [{ pts := some 35 }] }

/-- Game B: even regulation periods, an overtime margin window averaging
7.9, a 21-PTS star; the exact total 1001/12 displays as 83.4 while the
displayed sub-scores sum to 83.5. -/
def eventsB : List PlayEvent :=
  regulationEvents ++
  ((List.replicate 9 (8 : ℚ) ++ List.replicate 1 (7 : ℚ)).map (fun m =>
    ev 5 1 (Cell.numv m) "5:00" (some "9 - 9")))

/-- The provider state for game B. -/
def envB : Env :=
  { playByPlay := fun _ => eventsB,
    recentGames := [{ game_id := "G1", fg_pct := some (1 / 2), fg3_pct := some (1 / 5) }],
    boxscore := fun _ => some [{ pts := some 21 }] }

/-- A provider with no play-by-play data for any game. -/
def envEmpty : Env :=
  { playByPlay := fun _ => [],
    recentGames := [],
    boxscore := fun _ => none }

/-- Two provider states that agree on everything except the box score
they serve for a game: used to exhibit the margin/star scorer's hidden
dependence on the provider. -/
def envStar35 : Env :=
  { playByPlay := fun _ => [],
    recentGames := [],
    boxscore := fun _ => some [{ pts := some 35 }] }

/-- Like `envStar35` but the provider reports a best of 10 points. -/
def envStar10 : Env :=
  { playByPlay := fun _ => [],
    recentGames := [],
    boxscore := fun _ => some [{ pts := some 10 }] }

/-- A second provider serving exactly the same data as `envStar35`,
written as a separate value: the dependence theorem identifies the scorer
outputs under the two. -/
def envStar35b : Env :=
  { playByPlay := fun _ => [],
    recentGames := [],
    boxscore := fun _ => some [{ pts := some 35 }] }

/-- Two final-period events probing the margin window: one six minutes
before the period's end with margin 2, one thirty seconds before the end
with margin 20.  The code averages the former (clock ≥ 300 s remaining),
the claim's "last 5 minutes" reading averages the latter. -/
def dfC2 : List PlayEvent :=
  [ev 4 1 (Cell.numv 2) "6:00" none, ev 4 1 (Cell.numv 20) "0:30" none]

/-- A provider serving only a 30-point box score, for exercising the
margin scorer directly. -/
def envBox30 : Env :=
  { playByPlay := fun _ => [],
    recentGames := [],
    boxscore := fun _ => some [{ pts := some 30 }] }

/-- The fields of a play-by-play row that no function of the engine ever
writes: period, event type, clock string, and cumulative score.  Used to
state which part of a mutated table is guaranteed unchanged. -/
def rowFrame (e : PlayEvent) : Nat × Int × Option String × Option String :=
  (e.period, e.eventmsgtype, e.pctimestring, e.score)

attribute [local semireducible] Rat.add Rat.mul Rat.inv Rat.sub Rat.ofScientific

/-- C6 counterexample: the parser is not non-negative on every input
string.  Python's `int` accepts a sign, so the minutes part of `"-1:00"`
parses to −1 and the parser returns −60, which is neither non-negative
nor the malformed-input default 0. -/
theorem C6_negative_clock_counterexample :
    convert_pctimestring_to_seconds (some "-1:00") = -60 ∧
    ¬ (0 : ℚ) ≤ convert_pctimestring_to_seconds (some "-1:00") := by
  decide

/-- C6 (amended): for every input the TimeCode Parser returns a value
without raising; a well-formed `"M:SS"` string maps to `M*60 + SS`
(non-negative whenever both parsed components are non-negative, so
`"0:24" ↦ 24` and `"5:00" ↦ 300`), and an empty, missing, or malformed
string yields 0 — but a component carrying a minus sign yields a negative
result, so the output is not non-negative on all inputs. -/
theorem C6_timecode_conversion (s : String) (a b : List Char) (m : ℤ) (sec : ℚ)
    (hne : s ≠ "") (hsplit : splitCh ':' s.toList = [a, b])
    (hm : pyInt (String.mk a) = some m) (hsec : pyFloat (String.mk b) = some sec) :
    convert_pctimestring_to_seconds (some s) = (m : ℚ) * 60 + sec ∧
    (0 ≤ m → 0 ≤ sec → 0 ≤ convert_pctimestring_to_seconds (some s)) ∧
    convert_pctimestring_to_seconds none = 0 ∧
    convert_pctimestring_to_seconds (some "") = 0 ∧
    convert_pctimestring_to_seconds (some "0:24") = 24 ∧
    convert_pctimestring_to_seconds (some "5:00") = 300 ∧
    convert_pctimestring_to_seconds (some "abc") = 0 ∧
    convert_pctimestring_to_seconds (some "12:34:56") = 0 := by
  have hval : convert_pctimestring_to_seconds (some s) = (m : ℚ) * 60 + sec := by
    simp only [convert_pctimestring_to_seconds, if_neg hne, hsplit, hm, hsec]
  refine ⟨hval, ?_, by decide, by decide, by decide, by decide, by decide, by decide⟩
  intro hm0 hsec0
  rw [hval]
  have : (0 : ℚ) ≤ (m : ℚ) := by exact_mod_cast hm0
  nlinarith

/-- C6 witness: the amended parser theorem applied to the concrete
well-formed clock string `"3:30"`. -/
theorem C6_timecode_conversion_witness :
    convert_pctimestring_to_seconds (some "3:30") = 210 := by
  have h := (C6_timecode_conversion "3:30" ['3'] ['3', '0'] 3 30 (by decide)
    (by decide) (by decide) (by decide)).1
  rw [h]
  norm_num

/-- C8 (confirmed): the Grade Mapper is a total pure function of the
Total Score with exactly the claimed thresholds — `≥93 → A+`, `≥85 → A`,
`≥80 → B+`, `≥75 → B`, `≥70 → C+`, `≥65 → C`, anything lower `D` — with
`93 → A+`, `92.9 → A`, `65 → C`, `64.9 → D`, and it never returns
`'N/A'` (not even for a NaN total). -/
theorem C8_grade_mapper :
    (∀ t : ℚ, 93 ≤ t → get_grade (some t) = "A+") ∧
    (∀ t : ℚ, 85 ≤ t → t < 93 → get_grade (some t) = "A") ∧
    (∀ t : ℚ, 80 ≤ t → t < 85 → get_grade (some t) = "B+") ∧
    (∀ t : ℚ, 75 ≤ t → t < 80 → get_grade (some t) = "B") ∧
    (∀ t : ℚ, 70 ≤ t → t < 75 → get_grade (some t) = "C+") ∧
    (∀ t : ℚ, 65 ≤ t → t < 70 → get_grade (some t) = "C") ∧
    (∀ t : ℚ, t < 65 → get_grade (some t) = "D") ∧
    (∀ x : RQ, get_grade x ≠ "N/A") ∧
    get_grade (some 93) = "A+" ∧ get_grade (some (929 / 10)) = "A" ∧
    get_grade (some 65) = "C" ∧ get_grade (some (649 / 10)) = "D" := by
  refine ⟨?_, ?_, ?_, ?_, ?_, ?_, ?_, ?_, by decide, by decide, by decide, by decide⟩
  · intro t h
    simp only [get_grade, rqGe, decide_eq_true_eq]
    rw [if_pos h]
  · intro t h1 h2
    simp only [get_grade, rqGe, decide_eq_true_eq]
    rw [if_neg (by linarith), if_pos h1]
  · intro t h1 h2
    simp only [get_grade, rqGe, decide_eq_true_eq]
    rw [if_neg (by linarith), if_neg (by linarith), if_pos h1]
  · intro t h1 h2
    simp only [get_grade, rqGe, decide_eq_true_eq]
    rw [if_neg (by linarith), if_neg (by linarith), if_neg (by linarith), if_pos h1]
  · intro t h1 h2
    simp only [get_grade, rqGe, decide_eq_true_eq]
    rw [if_neg (by linarith), if_neg (by linarith), if_neg (by linarith),
      if_neg (by linarith), if_pos h1]
  · intro t h1 h2
    simp only [get_grade, rqGe, decide_eq_true_eq]
    rw [if_neg (by linarith), if_neg (by linarith), if_neg (by linarith),
      if_neg (by linarith), if_neg (by linarith), if_pos h1]
  · intro t h1
    simp only [get_grade, rqGe, decide_eq_true_eq]
    rw [if_neg (by linarith), if_neg (by linarith), if_neg (by linarith),
      if_neg (by linarith), if_neg (by linarith), if_neg (by linarith)]
  · intro x
    cases x with
    | none => simp [get_grade, rqGe]
    | some t =>
      simp only [get_grade, rqGe, decide_eq_true_eq]
      split_ifs <;> decide

/-- C8 witness: the threshold theorem applied at the concrete total 93. -/
theorem C8_grade_mapper_witness : get_grade (some 93) = "A+" :=
  C8_grade_mapper.1 93 (by norm_num)

/-- C9 (confirmed): the orchestrator is a total function — one
`GameResult` per requested game by construction — and when the provider
has no play-by-play for the game it returns the degraded record with
every sub-score 0, Total Score 0, and grade `'N/A'`. -/
theorem C9_no_data_result (cfg : WeightConfig) (env : Env)
    (game_id game_date matchup : String) (h : env.playByPlay game_id = []) :
    analyze_game cfg env game_id game_date matchup =
      { game_id := game_id, game_date := game_date, teams := matchup,
        period_scores := some 0, extra_periods := some 0,
        lead_changes := some 0, buzzer_beater := some 0, fg3_pct := some 0,
        star_performance := some 0, margin := some 0, total_score := some 0,
        grade := "N/A", average_margin := some 0 } := by
  simp [analyze_game, h]

/-- C9 witness: the degraded-result theorem applied to a provider with no
data at all. -/
theorem C9_no_data_result_witness :
    analyze_game WEIGHT_CONFIG envEmpty "0022100001" "2022-01-01" "AAA vs. BBB" =
      { game_id := "0022100001", game_date := "2022-01-01",
        teams := "AAA vs. BBB", period_scores := some 0,
        extra_periods := some 0, lead_changes := some 0,
        buzzer_beater := some 0, fg3_pct := some 0, star_performance := some 0,
        margin := some 0, total_score := some 0, grade := "N/A",
        average_margin := some 0 } :=
  C9_no_data_result WEIGHT_CONFIG envEmpty "0022100001" "2022-01-01"
    "AAA vs. BBB" rfl

/-- Membership in the accumulator-threaded fold that implements
`df['PERIOD'].unique()`. -/
theorem mem_uniquePeriods_foldl (df : List PlayEvent) (acc : List Nat) (x : Nat) :
    x ∈ df.foldl (fun acc e => if e.period ∈ acc then acc else acc ++ [e.period]) acc ↔
      x ∈ acc ∨ ∃ e ∈ df, e.period = x := by
  induction df generalizing acc with
  | nil => simp
  | cons hd tl ih =>
    simp only [List.foldl_cons]
    by_cases h : hd.period ∈ acc
    · rw [if_pos h, ih]
      constructor
      · rintro (hx | hx)
        · exact Or.inl hx
        · exact Or.inr (by simpa using Or.inr hx)
      · rintro (hx | hx)
        · exact Or.inl hx
        · rcases (by simpa using hx : hd.period = x ∨ ∃ e ∈ tl, e.period = x) with
            heq | he
          · exact Or.inl (heq ▸ h)
          · exact Or.inr he
    · rw [if_neg h, ih]
      simp only [List.mem_append, List.mem_singleton]
      constructor
      · rintro ((hx | hx) | hx)
        · exact Or.inl hx
        · exact Or.inr (by simpa using Or.inl hx.symm)
        · exact Or.inr (by simpa using Or.inr hx)
      · rintro (hx | hx)
        · exact Or.inl (Or.inl hx)
        · rcases (by simpa using hx : hd.period = x ∨ ∃ e ∈ tl, e.period = x) with
            heq | he
          · exact Or.inl (Or.inr heq.symm)
          · exact Or.inr he

/-- A period number appears in `uniquePeriods df` exactly when some event
of `df` carries it. -/
theorem mem_uniquePeriods (df : List PlayEvent) (x : Nat) :
    x ∈ uniquePeriods df ↔ ∃ e ∈ df, e.period = x := by
  rw [uniquePeriods, mem_uniquePeriods_foldl]
  simp

/-- C3 counterexample: a lone *missed shot* (EVENTMSGTYPE 2) ten seconds
before the buzzer sets the clutch flag, although it is not a scoring-type
event (made shot or free throw) under the upstream coding. -/
theorem C3_missed_shot_flags :
    (calculate_buzzer_beater_score [ev 1 2 (Cell.numv 1) "0:10" none] (1 / 10)).1
      = true ∧
    isScoringTypeSpec 2 = false := by
  constructor
  · decide
  · decide

/-- C3 (amended): the clutch flag is set iff some event with at most 24
clock seconds remaining in its period has EVENTMSGTYPE 1, 2 or 3; since
type 2 is a missed shot under the upstream coding, missed shots do set
the flag, contrary to the claim's "made shot or free throw" only. -/
theorem C3_flag_characterization (df : List PlayEvent) (w : ℚ) :
    (calculate_buzzer_beater_score df w).1 = true ↔
      ∃ e ∈ df, convert_pctimestring_to_seconds e.pctimestring ≤ 24 ∧
        (e.eventmsgtype = 1 ∨ e.eventmsgtype = 2 ∨ e.eventmsgtype = 3) := by
  simp only [calculate_buzzer_beater_score, List.any_eq_true, mem_uniquePeriods,
    List.mem_filter, Bool.and_eq_true, decide_eq_true_eq]
  constructor
  · rintro ⟨p, ⟨e₀, he₀, hp₀⟩, e, ⟨he, hpe⟩, hsec, hty⟩
    exact ⟨e, he, hsec, hty⟩
  · rintro ⟨e, he, hsec, hty⟩
    exact ⟨e.period, ⟨e, he, rfl⟩, e, ⟨he, by simp⟩, hsec, hty⟩

/-- C3 witness: a made shot (EVENTMSGTYPE 1) five seconds before the
buzzer sets the flag, by the characterization. -/
theorem C3_flag_characterization_witness :
    (calculate_buzzer_beater_score [ev 1 1 (Cell.numv 1) "0:05" none] (1 / 10)).1
      = true :=
  (C3_flag_characterization [ev 1 1 (Cell.numv 1) "0:05" none] (1 / 10)).mpr
    ⟨ev 1 1 (Cell.numv 1) "0:05" none, by decide, by decide, Or.inl (by decide)⟩

/-- A list of options all of which are `some` sequences successfully. -/
theorem seqOption_of_all_isSome (l : List (Option ℚ)) (h : ∀ x ∈ l, x.isSome) :
    ∃ vs, seqOption l = some vs := by
  induction l with
  | nil => exact ⟨[], rfl⟩
  | cons x xs ih =>
    obtain ⟨v, hv⟩ := Option.isSome_iff_exists.mp (h x (by simp))
    obtain ⟨vs, hvs⟩ := ih (fun y hy => h y (by simp [hy]))
    exact ⟨v :: vs, by simp [seqOption, hv, hvs]⟩

/-- C7 counterexample: a non-empty period table in which no event has a
recorded cumulative score does not score 0 — the mean defaults to 0,
which falls into the full-score branch, so the sub-score is the full
weight × 100 (here weight 1/10 gives 10). -/
theorem C7_no_score_full_credit :
    (calculate_period_score [ev 1 1 (Cell.numv 3) "10:00" none] (1 / 10)).2.2 = 10 ∧
    (10 : ℚ) ≠ 0 := by
  constructor
  · decide
  · norm_num

/-- C7 (amended): the Period Closeness Scorer never raises; an *empty*
period table returns sub-score 0, but a non-empty table whose events all
lack a recorded cumulative score yields mean 0 and therefore the *full*
sub-score weight × 100 (the spec's known quirk), not 0. -/
theorem C7_zero_event_period :
    (∀ w : ℚ, calculate_period_score ([] : List PlayEvent) w = ([], 0, 0)) ∧
    (∀ (df : List PlayEvent) (w : ℚ), df ≠ [] →
      (∀ e ∈ df, (astypeFloat (fillnaZero (tieZero e.scoremargin))).isSome) →
      (∀ e ∈ df, e.score = none) →
      (calculate_period_score df w).2.1 = 0 ∧
        (calculate_period_score df w).2.2 = w * 100) := by
  constructor
  · intro w
    simp [calculate_period_score]
  · intro df w hne hnum hns
    have hall : ∀ x ∈ (tieMap df).map
        (fun e => astypeFloat (fillnaZero e.scoremargin)), x.isSome := by
      intro x hx
      rw [tieMap, List.map_map, List.mem_map] at hx
      obtain ⟨e, he, rfl⟩ := hx
      exact hnum e he
    obtain ⟨vs, hvs⟩ := seqOption_of_all_isSome _ hall
    have hcm : coerceMargins (tieMap df) = some vs := hvs
    have hfilter : dropnaScore (withPeriodscore (tieMap df) vs) = [] := by
      rw [dropnaScore, List.filter_eq_nil_iff]
      intro e he
      rw [withPeriodscore, List.mem_map] at he
      obtain ⟨p, hp, rfl⟩ := he
      have h1 := (List.of_mem_zip hp).1
      rw [tieMap, List.mem_map] at h1
      obtain ⟨e₀, he₀, h1eq⟩ := h1
      simp only [← h1eq]
      simp [hns e₀ he₀]
    simp only [calculate_period_score, if_neg hne, hcm, hfilter]
    simp [averagePeriodscore, periodCurve]

/-- C7 witness: the amended theorem applied to a concrete one-event
period with no recorded score and weight 1/5. -/
theorem C7_zero_event_period_witness :
    (calculate_period_score [ev 2 1 (Cell.numv 4) "9:00" none] (1 / 5)).2.2 = 20 := by
  have h := (C7_zero_event_period.2 [ev 2 1 (Cell.numv 4) "9:00" none] (1 / 5)
    (by decide) (by decide) (by decide)).2
  rw [h]
  norm_num

/-- A successful `seqOption` preserves the length. -/
theorem seqOption_length : ∀ {l : List (Option ℚ)} {vs : List ℚ},
    seqOption l = some vs → vs.length = l.length := by
  intro l
  induction l with
  | nil =>
    intro vs h
    simp only [seqOption, Option.some.injEq] at h
    subst h
    rfl
  | cons x xs ih =>
    intro vs h
    cases x with
    | none => simp [seqOption] at h
    | some v =>
      cases hxs : seqOption xs with
      | none => rw [seqOption, hxs] at h; simp at h
      | some ws =>
        rw [seqOption, hxs] at h
        simp at h
        simp [← h, ih hxs]

/-- The `'TIE'` overwrite leaves the frame fields of every row unchanged. -/
theorem map_rowFrame_tieMap (df : List PlayEvent) :
    (tieMap df).map rowFrame = df.map rowFrame := by
  rw [tieMap, List.map_map]
  exact List.map_congr_left (fun e _ => rfl)

/-- Adding the PCTIMESECONDS column leaves the frame fields unchanged. -/
theorem map_rowFrame_addSeconds (df : List PlayEvent) :
    (addSecondsColumn df).map rowFrame = df.map rowFrame := by
  rw [addSecondsColumn, List.map_map]
  exact List.map_congr_left (fun e _ => rfl)

/-- Rewriting the margin column from a same-length value list and adding
PERIODSCORE leaves the frame fields unchanged. -/
theorem map_rowFrame_withPeriodscore :
    ∀ (df : List PlayEvent) (vals : List ℚ), df.length = vals.length →
      (withPeriodscore df vals).map rowFrame = df.map rowFrame := by
  intro df
  induction df with
  | nil => intro vals _; simp [withPeriodscore]
  | cons hd tl ih =>
    intro vals h
    cases vals with
    | nil => simp at h
    | cons v vt =>
      simp only [withPeriodscore, List.zip_cons_cons, List.map_cons] at *
      exact congrArg₂ List.cons rfl (ih vt (by simpa using h))

/-- C5 counterexample: `calculate_period_score` mutates the table passed
to it — on a one-row table holding a `'TIE'` margin, the returned table
state differs from the input (the margin is overwritten with the number 0
and a PERIODSCORE column has appeared). -/
theorem C5_period_scorer_mutates :
    (calculate_period_score [ev 1 1 (Cell.strv "TIE") "10:00" (some "5 - 5")]
      (1 / 10)).1 ≠ [ev 1 1 (Cell.strv "TIE") "10:00" (some "5 - 5")] := by
  decide

/-- C5 (amended): the lead-change, buzzer-beater and shooting scorers and
the grade mapper take their inputs by value in this embedding because the
source never writes to them, but `calculate_period_score`,
`process_play_by_play_data` and the margin/star scorer do mutate the
tables passed to them (margin-column rewrite and derived columns); the
mutation never touches the frame fields — period, event type, clock
string, cumulative score — nor the row count or order. -/
theorem C5_mutation_frame :
    (∀ (df : List PlayEvent) (w : ℚ),
      ((calculate_period_score df w).1).map rowFrame = df.map rowFrame) ∧
    (∀ df : List PlayEvent,
      (process_play_by_play_data df).map rowFrame = df.map rowFrame) ∧
    (∀ (env : Env) (df : List PlayEvent) (gid : String) (wm ws : ℚ),
      ((calculate_margin_and_star_performance_score env df gid wm ws).1).map
        rowFrame = df.map rowFrame) := by
  refine ⟨?_, ?_, ?_⟩
  · intro df w
    by_cases hdf : df = []
    · subst hdf
      simp [calculate_period_score]
    · simp only [calculate_period_score, if_neg hdf]
      cases hc : coerceMargins (tieMap df) with
      | none => exact map_rowFrame_tieMap df
      | some vals =>
        have hlen : (tieMap df).length = vals.length := by
          have h1 := seqOption_length hc
          simpa [coerceMargins] using h1.symm
        calc (withPeriodscore (tieMap df) vals).map rowFrame
            = (tieMap df).map rowFrame := map_rowFrame_withPeriodscore _ _ hlen
          _ = df.map rowFrame := map_rowFrame_tieMap df
  · intro df
    rw [process_play_by_play_data, List.map_map]
    exact List.map_congr_left (fun e _ => rfl)
  · intro env df gid wm ws
    cases hb : env.boxscore gid with
    | none => simp [calculate_margin_and_star_performance_score, hb]
    | some bs =>
      simp only [calculate_margin_and_star_performance_score, hb]
      split
      · exact map_rowFrame_addSeconds df
      · exact map_rowFrame_addSeconds df

/-- The margin/star scorer reads the provider only through the box score
it serves for the requested game. -/
theorem margin_star_env_congr (env env' : Env) (df : List PlayEvent)
    (gid : String) (wm ws : ℚ) (h : env.boxscore gid = env'.boxscore gid) :
    calculate_margin_and_star_performance_score env df gid wm ws =
      calculate_margin_and_star_performance_score env' df gid wm ws := by
  simp only [calculate_margin_and_star_performance_score]
  rw [h]

/-- The orchestrator reads the provider only through the game's
play-by-play, the recent-games table, and the game's box score. -/
theorem analyze_env_congr (cfg : WeightConfig) (env env' : Env)
    (gid d m : String) (h1 : env.playByPlay gid = env'.playByPlay gid)
    (h2 : env.recentGames = env'.recentGames)
    (h3 : env.boxscore gid = env'.boxscore gid) :
    analyze_game cfg env gid d m = analyze_game cfg env' gid d m := by
  simp only [analyze_game, gameScores, rawTotal, h1, h2,
    margin_star_env_congr env env' _ gid _ _ h3]

/-- C4 counterexample: the margin/star scorer is not a pure function of
its tabular arguments — with the play-by-play argument and the weights
held identical, two provider states serving different box scores for the
game yield different results, because the scorer fetches the box score
from the provider itself. -/
theorem C4_provider_changes_result :
    calculate_margin_and_star_performance_score envStar35 [] "G" (25 / 100)
        (10 / 100) ≠
      calculate_margin_and_star_performance_score envStar10 [] "G" (25 / 100)
        (10 / 100) := by
  decide

/-- C4 (amended): every scorer other than the margin/star scorer takes no
provider at all in this embedding (the source functions read only their
arguments); the margin/star scorer and the orchestrator do read the
provider, but only through the game's box score, the game's play-by-play
and the recent-games table — so invocations agree exactly when the
provider serves the same data for the game, not unconditionally. -/
theorem C4_provider_dependence :
    (∀ (env env' : Env) (df : List PlayEvent) (gid : String) (wm ws : ℚ),
      env.boxscore gid = env'.boxscore gid →
        calculate_margin_and_star_performance_score env df gid wm ws =
          calculate_margin_and_star_performance_score env' df gid wm ws) ∧
    (∀ (cfg : WeightConfig) (env env' : Env) (gid d m : String),
      env.playByPlay gid = env'.playByPlay gid →
        env.recentGames = env'.recentGames →
          env.boxscore gid = env'.boxscore gid →
            analyze_game cfg env gid d m = analyze_game cfg env' gid d m) :=
  ⟨margin_star_env_congr, analyze_env_congr⟩

/-- C4 witness: two syntactically distinct providers serving the same box
score give the same margin/star result. -/
theorem C4_provider_dependence_witness :
    calculate_margin_and_star_performance_score envStar35 [] "G" (25 / 100)
        (10 / 100) =
      calculate_margin_and_star_performance_score envStar35b [] "G" (25 / 100)
        (10 / 100) :=
  C4_provider_dependence.1 envStar35 envStar35b [] "G" (25 / 100) (10 / 100) rfl

/-- C2 counterexample: the margin scorer's "average margin" is not the
mean over the last 5 minutes of the final period.  On `dfC2` the code
averages the event with ≥ 300 clock seconds remaining (margin 2, i.e.
*before* the final five minutes) while the claim's last-five-minutes
window holds the margin-20 event; 2 ≠ 20. -/
theorem C2_window_counterexample :
    (calculate_margin_and_star_performance_score envBox30 dfC2 "G" (25 / 100)
        (10 / 100)).2.1 = some 2 ∧
    lastFiveAvgMarginSpec dfC2 = some 20 ∧
    (some (2 : ℚ) : RQ) ≠ some 20 := by
  refine ⟨by decide, by decide, by decide⟩

/-- C2 (amended): the margin scorer averages the absolute margins of the
final-period events with *at least* 300 seconds remaining on the period
clock — everything before the last five minutes — and scores that mean
with full weight at ≤ 5, zero at ≥ 15, and linearly in between. -/
theorem C2_margin_average (env : Env) (df : List PlayEvent) (gid : String)
    (wm ws : ℚ) (hbox : (env.boxscore gid).isSome = true)
    (hstr : (marginWindow df).all (fun e => !isStrvCell e.scoremargin) = true) :
    (calculate_margin_and_star_performance_score env df gid wm ws).2.1 =
      (if marginWindow df = [] then some 0
       else absMeanMargin ((marginWindow df).map (fun e => e.scoremargin))) ∧
    (calculate_margin_and_star_performance_score env df gid wm ws).2.2.1 =
      marginCurve wm
        ((calculate_margin_and_star_performance_score env df gid wm ws).2.1) ∧
    (∀ a : ℚ, a ≤ 5 → marginCurve wm (some a) = some (wm * 100)) ∧
    (∀ a : ℚ, 15 ≤ a → marginCurve wm (some a) = some 0) ∧
    (∀ a : ℚ, 5 < a → a < 15 →
      marginCurve wm (some a) = some (wm * 100 * (15 - a) / 10)) := by
  obtain ⟨bs, hbs⟩ := Option.isSome_iff_exists.mp hbox
  have hany : (marginWindow df).any (fun e => isStrvCell e.scoremargin) = false := by
    rw [List.any_eq_false]
    intro x hx
    have hh := List.all_eq_true.mp hstr x hx
    simpa using hh
  refine ⟨?_, ?_, ?_, ?_, ?_⟩
  · simp only [calculate_margin_and_star_performance_score, hbs, hany,
      Bool.false_eq_true, if_false]
  · simp only [calculate_margin_and_star_performance_score, hbs, hany,
      Bool.false_eq_true, if_false]
  · intro a ha
    simp only [marginCurve]
    rw [if_neg (by linarith), if_pos ha]
  · intro a ha
    simp only [marginCurve]
    rw [if_pos ha]
  · intro a ha1 ha2
    simp only [marginCurve]
    rw [if_neg (by linarith), if_neg (by linarith)]

/-- C2 witness: the amended characterization applied to the concrete
two-event final period of `dfC2`. -/
theorem C2_margin_average_witness :
    (calculate_margin_and_star_performance_score envBox30 dfC2 "G" (25 / 100)
        (10 / 100)).2.1 =
      (if marginWindow dfC2 = [] then some 0
       else absMeanMargin ((marginWindow dfC2).map (fun e => e.scoremargin))) :=
  (C2_margin_average envBox30 dfC2 "G" (25 / 100) (10 / 100) (by decide)
    (by decide)).1

/-- C10 counterexample: in the degraded no-data result the Grade is not
computed from the Total Score at all — the result carries Total Score 0
with grade `'N/A'`, while the Grade Mapper sends 0 to `'D'`. -/
theorem C10_degraded_grade :
    (analyze_game WEIGHT_CONFIG envEmpty "G" "d" "m").total_score = some 0 ∧
    (analyze_game WEIGHT_CONFIG envEmpty "G" "d" "m").grade = "N/A" ∧
    get_grade (some 0) = "D" ∧
    ("N/A" : String) ≠ "D" := by
  refine ⟨by decide, by decide, by decide, by decide⟩

/-- C10 (amended): in every GameResult produced from obtainable
(non-empty) play-by-play data, the Grade is computed from the exact
unrounded Total Score while the reported Total Score and sub-scores are
rounded to one decimal; consequently game A's exact total 92.95 displays
as 93.0 with grade `'A'`, and game B's displayed Total Score 83.4 differs
from the 83.5 sum of its displayed sub-scores. -/
theorem C10_display_rounding :
    (∀ (cfg : WeightConfig) (env : Env) (gid d m : String),
      env.playByPlay gid ≠ [] →
        (analyze_game cfg env gid d m).grade = get_grade (rawTotal cfg env gid) ∧
        (analyze_game cfg env gid d m).total_score =
          pyRound1 (rawTotal cfg env gid) ∧
        (analyze_game cfg env gid d m).margin =
          pyRound1 (gameScores cfg env gid).margin_score ∧
        (analyze_game cfg env gid d m).star_performance =
          pyRound1 (gameScores cfg env gid).star_performance_score) ∧
    rawTotal WEIGHT_CONFIG envA "G1" = some (1859 / 20) ∧
    (analyze_game WEIGHT_CONFIG envA "G1" "d" "m").total_score = some 93 ∧
    (analyze_game WEIGHT_CONFIG envA "G1" "d" "m").grade = "A" ∧
    (analyze_game WEIGHT_CONFIG envB "G1" "d" "m").total_score =
      some (417 / 5) ∧
    rqAdd (rqAdd (rqAdd (rqAdd (rqAdd (rqAdd
      (analyze_game WEIGHT_CONFIG envB "G1" "d" "m").period_scores
      (analyze_game WEIGHT_CONFIG envB "G1" "d" "m").extra_periods)
      (analyze_game WEIGHT_CONFIG envB "G1" "d" "m").lead_changes)
      (analyze_game WEIGHT_CONFIG envB "G1" "d" "m").buzzer_beater)
      (analyze_game WEIGHT_CONFIG envB "G1" "d" "m").fg3_pct)
      (analyze_game WEIGHT_CONFIG envB "G1" "d" "m").star_performance)
      (analyze_game WEIGHT_CONFIG envB "G1" "d" "m").margin =
      some (167 / 2) ∧
    (some ((417 : ℚ) / 5) : RQ) ≠ some (167 / 2) := by
  refine ⟨?_, by decide, by decide, by decide, by decide, by decide, by decide⟩
  intro cfg env gid d m h
  simp [analyze_game, if_neg h]

/-- C10 witness: the rounding/grading relationship applied to the
concrete non-empty game A. -/
theorem C10_display_rounding_witness :
    (analyze_game WEIGHT_CONFIG envA "G1" "d" "m").grade =
      get_grade (rawTotal WEIGHT_CONFIG envA "G1") :=
  (C10_display_rounding.1 WEIGHT_CONFIG envA "G1" "d" "m" (by decide)).1

/-- The period-closeness curve stays inside `[0, w·100]` for a
non-negative weight and mean. -/
theorem periodCurve_bounds (w avg : ℚ) (hw : 0 ≤ w) (havg : 0 ≤ avg) :
    0 ≤ periodCurve w avg ∧ periodCurve w avg ≤ w * 100 := by
  have h100 : 0 ≤ w * 100 := by positivity
  rw [periodCurve]
  split_ifs with h1 h2
  · exact ⟨h100, le_rfl⟩
  · exact ⟨le_rfl, h100⟩
  · constructor
    · apply div_nonneg _ (by norm_num)
      apply mul_nonneg h100
      linarith [not_lt.mp h2]
    · rw [div_le_iff₀ (by norm_num : (0 : ℚ) < 13)]
      nlinarith [not_le.mp h1]

/-- The PERIODSCORE mean is non-negative when every row's PERIODSCORE
entry is. -/
theorem averagePeriodscore_nonneg (l : List PlayEvent)
    (h : ∀ e ∈ l, 0 ≤ e.periodscore.getD 0) : 0 ≤ averagePeriodscore l := by
  rw [averagePeriodscore]
  split_ifs with hl
  · exact le_rfl
  · apply div_nonneg _ (by positivity)
    apply List.sum_nonneg
    intro x hx
    rw [List.mem_map] at hx
    obtain ⟨e, he, rfl⟩ := hx
    exact h e he

/-- Every row written by `withPeriodscore` carries a non-negative
PERIODSCORE (an absolute value). -/
theorem withPeriodscore_getD_nonneg (df : List PlayEvent) (vals : List ℚ) :
    ∀ e ∈ withPeriodscore df vals, 0 ≤ e.periodscore.getD 0 := by
  intro e he
  rw [withPeriodscore, List.mem_map] at he
  obtain ⟨p, hp, rfl⟩ := he
  simp only [Option.getD_some]
  positivity

/-- The period sub-score lies in `[0, w·100]` for a non-negative weight. -/
theorem calculate_period_score_bounds (df : List PlayEvent) (w : ℚ)
    (hw : 0 ≤ w) :
    0 ≤ (calculate_period_score df w).2.2 ∧
      (calculate_period_score df w).2.2 ≤ w * 100 := by
  have h100 : 0 ≤ w * 100 := by positivity
  by_cases hdf : df = []
  · subst hdf
    simp only [calculate_period_score, if_pos rfl]
    exact ⟨le_rfl, h100⟩
  · simp only [calculate_period_score, if_neg hdf]
    cases hc : coerceMargins (tieMap df) with
    | none => exact ⟨le_rfl, h100⟩
    | some vals =>
      apply periodCurve_bounds _ _ hw
      apply averagePeriodscore_nonneg
      intro e he
      exact withPeriodscore_getD_nonneg _ _ e (List.mem_of_mem_filter he)

/-- One term of the orchestrator's period loop lies in `[0, w·100]`. -/
theorem periodTerm_bounds (df : List PlayEvent) (p : Nat) (w : ℚ) (hw : 0 ≤ w) :
    0 ≤ periodTerm df p w ∧ periodTerm df p w ≤ w * 100 := by
  rw [periodTerm]
  split_ifs with h
  · exact ⟨le_rfl, by positivity⟩
  · exact calculate_period_score_bounds _ _ hw

/-- The lead-change sub-score lies in `[0, w·100]` for a non-negative
weight. -/
theorem calculate_lead_changes_score_bounds (df : List PlayEvent) (w : ℚ)
    (hw : 0 ≤ w) :
    0 ≤ (calculate_lead_changes_score df w).2 ∧
      (calculate_lead_changes_score df w).2 ≤ w * 100 := by
  have h100 : 0 ≤ w * 100 := by positivity
  simp only [calculate_lead_changes_score]
  split_ifs with h1 h2
  · exact ⟨h100, le_rfl⟩
  · exact ⟨le_rfl, h100⟩
  · have hlo : 6 ≤ (df.foldl (fun st e => leadStep st e.scoremargin) (0, none)).1 :=
      by omega
    have hhi : (df.foldl (fun st e => leadStep st e.scoremargin) (0, none)).1 ≤ 11 :=
      by omega
    have hloq : (6 : ℚ) ≤
        ((df.foldl (fun st e => leadStep st e.scoremargin) (0, none)).1 : ℚ) := by
      exact_mod_cast hlo
    have hhiq : ((df.foldl (fun st e => leadStep st e.scoremargin) (0, none)).1 : ℚ)
        ≤ 11 := by
      exact_mod_cast hhi
    constructor
    · apply div_nonneg _ (by norm_num)
      apply mul_nonneg h100
      linarith
    · rw [div_le_iff₀ (by norm_num : (0 : ℚ) < 7)]
      nlinarith

/-- The buzzer-beater score expression (flag and last-margin cases) lies
in `[0, w·100]` for a non-negative weight. -/
theorem buzzerScoreCases (w : ℚ) (hw : 0 ≤ w) (b : Bool) (lm : Option ℚ) :
    0 ≤ (if b then
          match lm with
          | some m =>
            if |m| ≤ 3 then w * 100
            else if |m| ≤ 5 then w * 100 * (8 / 10)
            else w * 100 * (5 / 10)
          | none => w * 100 * (5 / 10)
        else 0) ∧
      (if b then
          match lm with
          | some m =>
            if |m| ≤ 3 then w * 100
            else if |m| ≤ 5 then w * 100 * (8 / 10)
            else w * 100 * (5 / 10)
          | none => w * 100 * (5 / 10)
        else 0) ≤ w * 100 := by
  have h100 : 0 ≤ w * 100 := by positivity
  cases b with
  | false => exact ⟨le_rfl, h100⟩
  | true =>
    cases lm with
    | none =>
      simp only [if_true]
      refine ⟨by positivity, ?_⟩
      nlinarith
    | some m =>
      simp only [if_true]
      split_ifs
      · exact ⟨h100, le_rfl⟩
      · exact ⟨by positivity, by nlinarith⟩
      · exact ⟨by positivity, by nlinarith⟩

/-- The buzzer-beater sub-score lies in `[0, w·100]` for a non-negative
weight. -/
theorem calculate_buzzer_beater_score_bounds (df : List PlayEvent) (w : ℚ)
    (hw : 0 ≤ w) :
    0 ≤ (calculate_buzzer_beater_score df w).2 ∧
      (calculate_buzzer_beater_score df w).2 ≤ w * 100 := by
  simp only [calculate_buzzer_beater_score]
  exact buzzerScoreCases w hw _ _

/-- The FG% curve returns a value in `[0, w·100]` on a present
percentage. -/
theorem fgCurveRow_bounds (w v : ℚ) (hw : 0 ≤ w) :
    ∃ b, fgCurveRow (some v) w = some b ∧ 0 ≤ b ∧ b ≤ w * 100 := by
  have h100 : 0 ≤ w * 100 := by positivity
  simp only [fgCurveRow]
  split_ifs with h1 h2
  · exact ⟨w * 100, rfl, h100, le_rfl⟩
  · exact ⟨0, rfl, le_rfl, h100⟩
  · refine ⟨_, rfl, ?_, ?_⟩
    · apply div_nonneg _ (by norm_num)
      apply mul_nonneg h100
      linarith [not_le.mp h2]
    · rw [div_le_iff₀ (by norm_num : (0 : ℚ) < 1 / 10)]
      nlinarith [not_le.mp h1]

/-- The 3PT% curve returns a value in `[0, w·100]` on a present
percentage. -/
theorem fg3CurveRow_bounds (w v : ℚ) (hw : 0 ≤ w) :
    ∃ b, fg3CurveRow (some v) w = some b ∧ 0 ≤ b ∧ b ≤ w * 100 := by
  have h100 : 0 ≤ w * 100 := by positivity
  simp only [fg3CurveRow]
  split_ifs with h1 h2
  · exact ⟨w * 100, rfl, h100, le_rfl⟩
  · exact ⟨0, rfl, le_rfl, h100⟩
  · refine ⟨_, rfl, ?_, ?_⟩
    · apply div_nonneg _ (by norm_num)
      apply mul_nonneg h100
      linarith [not_le.mp h2]
    · rw [div_le_iff₀ (by norm_num : (0 : ℚ) < 1 / 10)]
      nlinarith [not_le.mp h1]

/-- Python `max` over a nonempty list of present values bounded in
`[0, c]` is itself a present value in `[0, c]`. -/
theorem pyMaxList_bounds (c : ℚ) :
    ∀ l : List RQ, (∀ x ∈ l, ∃ b, x = some b ∧ 0 ≤ b ∧ b ≤ c) → l ≠ [] →
      ∃ m, pyMaxList l = some m ∧ 0 ≤ m ∧ m ≤ c := by
  have aux : ∀ (t : List RQ) (a : RQ), (∃ b, a = some b ∧ 0 ≤ b ∧ b ≤ c) →
      (∀ x ∈ t, ∃ b, x = some b ∧ 0 ≤ b ∧ b ≤ c) →
      ∃ m, t.foldl (fun m x => if rqGT x m then x else m) a = some m ∧
        0 ≤ m ∧ m ≤ c := by
    intro t
    induction t with
    | nil =>
      intro a ha _
      simpa using ha
    | cons x xs ih =>
      intro a ha hx
      simp only [List.foldl_cons]
      apply ih
      · split_ifs
        · exact hx x (by simp)
        · exact ha
      · intro y hy
        exact hx y (by simp [hy])
  intro l hl hne
  cases l with
  | nil => exact absurd rfl hne
  | cons hd tl =>
    rw [pyMaxList]
    exact aux tl hd (hl hd (by simp)) (fun x hx => hl x (by simp [hx]))

/-- Python `max` of two present values bounded in `[0, c]`. -/
theorem pyMax2_bounds (c : ℚ) (x y : RQ)
    (hx : ∃ b, x = some b ∧ 0 ≤ b ∧ b ≤ c)
    (hy : ∃ b, y = some b ∧ 0 ≤ b ∧ b ≤ c) :
    ∃ m, pyMax2 x y = some m ∧ 0 ≤ m ∧ m ≤ c := by
  rw [pyMax2]
  split_ifs
  · exact hy
  · exact hx

/-- The combined shooting sub-score is a present value in `[0, w·100]`
whenever the game's recent-games rows carry actual percentages. -/
theorem get_fg_fg3_pct_score_bounds (rg : List TeamRow) (gid : String) (w : ℚ)
    (hw : 0 ≤ w)
    (hwf : ∀ r ∈ rg, r.game_id = gid → r.fg_pct.isSome ∧ r.fg3_pct.isSome) :
    ∃ b, (get_fg_fg3_pct_score rg gid w).2.2 = some b ∧ 0 ≤ b ∧ b ≤ w * 100 := by
  have h100 : 0 ≤ w * 100 := by positivity
  rw [get_fg_fg3_pct_score]
  split_ifs with h
  · exact ⟨0, rfl, le_rfl, h100⟩
  · push_neg at h
    obtain ⟨hne, hmem⟩ := h
    rw [List.mem_map] at hmem
    obtain ⟨r0, hr0, hr0id⟩ := hmem
    have hrows : rg.filter (fun r => r.game_id = gid) ≠ [] := by
      intro hnil
      have : r0 ∈ rg.filter (fun r => r.game_id = gid) :=
        List.mem_filter.mpr ⟨hr0, by simp [hr0id]⟩
      rw [hnil] at this
      simp at this
    have hfgs : ∀ x ∈ (rg.filter (fun r => r.game_id = gid)).map
        (fun r => fgCurveRow r.fg_pct w),
        ∃ b, x = some b ∧ 0 ≤ b ∧ b ≤ w * 100 := by
      intro x hx
      rw [List.mem_map] at hx
      obtain ⟨r, hr, rfl⟩ := hx
      have hrmem := List.mem_filter.mp hr
      have hid : r.game_id = gid := by simpa using hrmem.2
      obtain ⟨v, hv⟩ := Option.isSome_iff_exists.mp (hwf r hrmem.1 hid).1
      rw [hv]
      exact fgCurveRow_bounds w v hw
    have hf3s : ∀ x ∈ (rg.filter (fun r => r.game_id = gid)).map
        (fun r => fg3CurveRow r.fg3_pct w),
        ∃ b, x = some b ∧ 0 ≤ b ∧ b ≤ w * 100 := by
      intro x hx
      rw [List.mem_map] at hx
      obtain ⟨r, hr, rfl⟩ := hx
      have hrmem := List.mem_filter.mp hr
      have hid : r.game_id = gid := by simpa using hrmem.2
      obtain ⟨v, hv⟩ := Option.isSome_iff_exists.mp (hwf r hrmem.1 hid).2
      rw [hv]
      exact fg3CurveRow_bounds w v hw
    have hmapne1 : (rg.filter (fun r => r.game_id = gid)).map
        (fun r => fgCurveRow r.fg_pct w) ≠ [] := by
      simpa using hrows
    have hmapne2 : (rg.filter (fun r => r.game_id = gid)).map
        (fun r => fg3CurveRow r.fg3_pct w) ≠ [] := by
      simpa using hrows
    simp only [if_neg hmapne1, if_neg hmapne2]
    exact pyMax2_bounds (w * 100) _ _
      (pyMaxList_bounds (w * 100) _ hfgs hmapne1)
      (pyMaxList_bounds (w * 100) _ hf3s hmapne2)

/-- The margin-closeness curve returns a value in `[0, w·100]` on a
present average. -/
theorem marginCurve_bounds (wm a : ℚ) (hw : 0 ≤ wm) :
    ∃ b, marginCurve wm (some a) = some b ∧ 0 ≤ b ∧ b ≤ wm * 100 := by
  have h100 : 0 ≤ wm * 100 := by positivity
  simp only [marginCurve]
  split_ifs with h1 h2
  · exact ⟨0, rfl, le_rfl, h100⟩
  · exact ⟨wm * 100, rfl, h100, le_rfl⟩
  · refine ⟨_, rfl, ?_, ?_⟩
    · apply div_nonneg _ (by norm_num)
      apply mul_nonneg h100
      linarith [not_le.mp h1]
    · rw [div_le_iff₀ (by norm_num : (0 : ℚ) < 10)]
      nlinarith [not_le.mp h2]

/-- The star-performance curve returns a value in `[0, w·100]` on a
present best-points value. -/
theorem starCurve_bounds (ws p : ℚ) (hw : 0 ≤ ws) :
    ∃ b, starCurve ws (some p) = some b ∧ 0 ≤ b ∧ b ≤ ws * 100 := by
  have h100 : 0 ≤ ws * 100 := by positivity
  simp only [starCurve]
  split_ifs with h1 h2
  · exact ⟨ws * 100, rfl, h100, le_rfl⟩
  · exact ⟨0, rfl, le_rfl, h100⟩
  · refine ⟨_, rfl, ?_, ?_⟩
    · apply div_nonneg _ (by norm_num)
      apply mul_nonneg h100
      linarith [not_le.mp h2]
    · rw [div_le_iff₀ (by norm_num : (0 : ℚ) < 15)]
      nlinarith [not_le.mp h1]

/-- The absolute-margin mean is a present non-negative value as soon as
the window holds one numeric margin. -/
theorem absMeanMargin_some_nonneg (cells : List Cell)
    (h : ∃ c ∈ cells, ∃ q, c = Cell.numv q) :
    ∃ a, absMeanMargin cells = some a ∧ 0 ≤ a := by
  have hvne : cells.filterMap (fun c =>
      match c with
      | Cell.numv q => some q
      | _ => none) ≠ [] := by
    obtain ⟨c, hc, q, rfl⟩ := h
    have : q ∈ cells.filterMap (fun c =>
        match c with
        | Cell.numv q => some q
        | _ => none) := List.mem_filterMap.mpr ⟨Cell.numv q, hc, rfl⟩
    intro hnil
    rw [hnil] at this
    simp at this
  simp only [absMeanMargin]
  cases hv : cells.filterMap (fun c =>
      match c with
      | Cell.numv q => some q
      | _ => none) with
  | nil => exact absurd hv hvne
  | cons hd tl =>
    refine ⟨_, rfl, ?_⟩
    apply div_nonneg _ (by positivity)
    apply List.sum_nonneg
    intro x hx
    rw [List.mem_map] at hx
    obtain ⟨q, hq, rfl⟩ := hx
    positivity

/-- A PTS column with one present entry has a present pandas max. -/
theorem seriesMax_isSome (l : List (Option ℚ)) (h : ∃ x ∈ l, x.isSome) :
    ∃ p, seriesMax l = some p := by
  obtain ⟨x, hx, hs⟩ := h
  obtain ⟨v, rfl⟩ := Option.isSome_iff_exists.mp hs
  have : v ∈ l.filterMap id := List.mem_filterMap.mpr ⟨some v, hx, rfl⟩
  rw [seriesMax]
  cases hv : l.filterMap id with
  | nil =>
    rw [hv] at this
    simp at this
  | cons hd tl => exact ⟨_, rfl⟩

/-- The margin and star sub-scores are present values in their weight
ranges, and the reported average margin is present, whenever the margin
window is clean (no raw strings, one numeric margin if nonempty) and a
successfully fetched box score has a recorded PTS value. -/
theorem margin_star_bounds (env : Env) (df : List PlayEvent) (gid : String)
    (wm ws : ℚ) (hwm : 0 ≤ wm) (hws : 0 ≤ ws)
    (hstr : ∀ e ∈ marginWindow df, isStrvCell e.scoremargin = false)
    (hnum : marginWindow df ≠ [] →
      ∃ e ∈ marginWindow df, ∃ q, e.scoremargin = Cell.numv q)
    (hbox : ∀ bs, env.boxscore gid = some bs → ∃ b ∈ bs, b.pts.isSome) :
    (∃ mg, (calculate_margin_and_star_performance_score env df gid wm ws).2.2.1 =
        some mg ∧ 0 ≤ mg ∧ mg ≤ wm * 100) ∧
    (∃ st, (calculate_margin_and_star_performance_score env df gid wm ws).2.2.2.2 =
        some st ∧ 0 ≤ st ∧ st ≤ ws * 100) ∧
    (∃ av, (calculate_margin_and_star_performance_score env df gid wm ws).2.1 =
        some av) := by
  have h100m : 0 ≤ wm * 100 := by positivity
  have h100s : 0 ≤ ws * 100 := by positivity
  cases hb : env.boxscore gid with
  | none =>
    simp only [calculate_margin_and_star_performance_score, hb]
    exact ⟨⟨0, rfl, le_rfl, h100m⟩, ⟨0, rfl, le_rfl, h100s⟩, ⟨0, rfl⟩⟩
  | some bs =>
    have hany : (marginWindow df).any (fun e => isStrvCell e.scoremargin) = false := by
      rw [List.any_eq_false]
      intro x hx
      simp [hstr x hx]
    have hstar : ∃ st, starCurve ws (seriesMax (bs.map (fun b => b.pts))) =
        some st ∧ 0 ≤ st ∧ st ≤ ws * 100 := by
      obtain ⟨b0, hb0, hb0s⟩ := hbox bs hb
      obtain ⟨p, hp⟩ := seriesMax_isSome (bs.map (fun b => b.pts))
        ⟨b0.pts, List.mem_map.mpr ⟨b0, hb0, rfl⟩, hb0s⟩
      rw [hp]
      exact starCurve_bounds ws p hws
    simp only [calculate_margin_and_star_performance_score, hb, hany,
      Bool.false_eq_true, if_false]
    by_cases hw0 : marginWindow df = []
    · simp only [if_pos hw0]
      obtain ⟨mg, hmg, hmg0, hmgle⟩ := marginCurve_bounds wm 0 hwm
      have h05 : marginCurve wm (some 0) = some (wm * 100) := by
        simp only [marginCurve]
        rw [if_neg (by norm_num), if_pos (by norm_num)]
      exact ⟨⟨wm * 100, h05, h100m, le_rfl⟩, hstar, ⟨0, rfl⟩⟩
    · simp only [if_neg hw0]
      have hmem : ∃ c ∈ (marginWindow df).map (fun e => e.scoremargin),
          ∃ q, c = Cell.numv q := by
        obtain ⟨e, he, q, hq⟩ := hnum hw0
        exact ⟨e.scoremargin, List.mem_map.mpr ⟨e, he, rfl⟩, q, hq⟩
      obtain ⟨a, ha, ha0⟩ := absMeanMargin_some_nonneg _ hmem
      rw [ha]
      obtain ⟨mg, hmg, hmg0, hmgle⟩ := marginCurve_bounds wm a hwm
      exact ⟨⟨mg, hmg, hmg0, hmgle⟩, hstar, ⟨a, rfl⟩⟩

/-- After `process_play_by_play_data`, no margin cell is a raw string:
`to_numeric(errors='coerce')` leaves only numbers and NaN. -/
theorem process_no_strv (df : List PlayEvent) :
    ∀ e ∈ process_play_by_play_data df, isStrvCell e.scoremargin = false := by
  intro e he
  rw [process_play_by_play_data, List.mem_map] at he
  obtain ⟨e₀, he₀, rfl⟩ := he
  cases hm : e₀.scoremargin with
  | na => simp [isStrvCell, hm]
  | numv q => simp [isStrvCell, hm]
  | strv s =>
    simp only [hm]
    cases hp : pyFloat (if s = "TIE" then "0" else s) with
    | none => simp [isStrvCell, hp]
    | some q => simp [isStrvCell, hp]

/-- The margin window only filters rows, so a string-free margin column
stays string-free inside the window. -/
theorem marginWindow_no_strv (df : List PlayEvent)
    (h : ∀ e ∈ df, isStrvCell e.scoremargin = false) :
    ∀ e ∈ marginWindow df, isStrvCell e.scoremargin = false := by
  intro e he
  rw [marginWindow] at he
  cases hmp : maxPeriod (addSecondsColumn df) with
  | none =>
    rw [hmp] at he
    simp at he
  | some mp =>
    rw [hmp] at he
    have he' := List.mem_of_mem_filter he
    rw [addSecondsColumn, List.mem_map] at he'
    obtain ⟨e₀, he₀, rfl⟩ := he'
    exact h e₀ he₀

/-- C1 (confirmed): for every WeightConfig with non-negative weights
satisfying the weight-sum invariant (period weights summed, scaled by the
max-period-pool factor, plus the six scalar weights equal 1), and every
well-formed input served by the provider, the unrounded Total Score — the
NaN-free sum of all component sub-scores — lies in `[0, 100]`, with the
period block bounded by its pooled weight × 100 and every other sub-score
non-negative and at most its weight × 100. -/
theorem C1_total_score_in_range (cfg : WeightConfig) (env : Env) (gid : String)
    (hpw1 : 0 ≤ cfg.pw1) (hpw2 : 0 ≤ cfg.pw2) (hpw3 : 0 ≤ cfg.pw3)
    (hpw4 : 0 ≤ cfg.pw4) (hmp : 0 ≤ cfg.max_total_score)
    (hex : 0 ≤ cfg.extra_period_weight) (hlc : 0 ≤ cfg.lead_change_weight)
    (hbb : 0 ≤ cfg.buzzer_beater_weight) (hfg : 0 ≤ cfg.fg3_pct_weight)
    (hst : 0 ≤ cfg.star_performance_weight) (hmg : 0 ≤ cfg.margin_weight)
    (hsum : (cfg.pw1 + cfg.pw2 + cfg.pw3 + cfg.pw4) * cfg.max_total_score +
      cfg.extra_period_weight + cfg.lead_change_weight +
      cfg.buzzer_beater_weight + cfg.fg3_pct_weight +
      cfg.star_performance_weight + cfg.margin_weight = 1)
    (hwf : wellFormedInput env gid = true) :
    ∃ t : ℚ, rawTotal cfg env gid = some t ∧ 0 ≤ t ∧ t ≤ 100 ∧
      0 ≤ (gameScores cfg env gid).period_score_total ∧
      (gameScores cfg env gid).period_score_total ≤
        (cfg.pw1 + cfg.pw2 + cfg.pw3 + cfg.pw4) * cfg.max_total_score * 100 ∧
      0 ≤ (gameScores cfg env gid).extra_periods_score ∧
      (gameScores cfg env gid).extra_periods_score ≤
        cfg.extra_period_weight * 100 ∧
      0 ≤ (gameScores cfg env gid).lead_changes_score ∧
      (gameScores cfg env gid).lead_changes_score ≤
        cfg.lead_change_weight * 100 ∧
      0 ≤ (gameScores cfg env gid).buzzer_beater_score ∧
      (gameScores cfg env gid).buzzer_beater_score ≤
        cfg.buzzer_beater_weight * 100 ∧
      (∃ b, (gameScores cfg env gid).fg3_pct_score = some b ∧ 0 ≤ b ∧
        b ≤ cfg.fg3_pct_weight * 100) ∧
      (∃ b, (gameScores cfg env gid).margin_score = some b ∧ 0 ≤ b ∧
        b ≤ cfg.margin_weight * 100) ∧
      (∃ b, (gameScores cfg env gid).star_performance_score = some b ∧ 0 ≤ b ∧
        b ≤ cfg.star_performance_weight * 100) := by
  obtain ⟨h1, h2, h3⟩ :
      (env.recentGames.all (fun r =>
        !(r.game_id = gid) || (r.fg_pct.isSome && r.fg3_pct.isSome)) = true) ∧
      ((match env.boxscore gid with
        | none => true
        | some bs => bs.any (fun b => b.pts.isSome)) = true) ∧
      (((marginWindow (process_play_by_play_data (env.playByPlay gid))).isEmpty ||
        (marginWindow (process_play_by_play_data (env.playByPlay gid))).any
          (fun e =>
            match e.scoremargin with
            | Cell.numv _ => true
            | _ => false)) = true) := by
    have hwf' := hwf
    rw [wellFormedInput, Bool.and_eq_true, Bool.and_eq_true] at hwf'
    exact ⟨hwf'.1.1, hwf'.1.2, hwf'.2⟩
  have hfgwf : ∀ r ∈ env.recentGames, r.game_id = gid →
      r.fg_pct.isSome = true ∧ r.fg3_pct.isSome = true := by
    intro r hr hid
    have hh := List.all_eq_true.mp h1 r hr
    simpa [hid] using hh
  have hboxwf : ∀ bs, env.boxscore gid = some bs →
      ∃ b ∈ bs, b.pts.isSome = true := by
    intro bs hbs
    rw [hbs] at h2
    exact List.any_eq_true.mp h2
  have hnumwf : marginWindow (process_play_by_play_data (env.playByPlay gid)) ≠ [] →
      ∃ e ∈ marginWindow (process_play_by_play_data (env.playByPlay gid)),
        ∃ q, e.scoremargin = Cell.numv q := by
    intro hne
    rcases Bool.or_eq_true_iff.mp h3 with hempty | hany
    · exact absurd (List.isEmpty_iff.mp hempty) hne
    · obtain ⟨e, he, hmatch⟩ := List.any_eq_true.mp hany
      cases hcell : e.scoremargin with
      | na => rw [hcell] at hmatch; simp at hmatch
      | strv s => rw [hcell] at hmatch; simp at hmatch
      | numv q => exact ⟨e, he, q, hcell⟩
  have hstrwf := marginWindow_no_strv
    (process_play_by_play_data (env.playByPlay gid))
    (process_no_strv (env.playByPlay gid))
  obtain ⟨⟨bmg, hbmg, hbmg0, hbmgle⟩, ⟨bst, hbst, hbst0, hbstle⟩, -⟩ :=
    margin_star_bounds env (process_play_by_play_data (env.playByPlay gid)) gid
      cfg.margin_weight cfg.star_performance_weight hmg hst hstrwf hnumwf hboxwf
  obtain ⟨bfg, hbfg, hbfg0, hbfgle⟩ := get_fg_fg3_pct_score_bounds
    env.recentGames gid cfg.fg3_pct_weight hfg hfgwf
  have hlcb := calculate_lead_changes_score_bounds
    (process_play_by_play_data (env.playByPlay gid)) cfg.lead_change_weight hlc
  have hbbb := calculate_buzzer_beater_score_bounds
    (process_play_by_play_data (env.playByPlay gid)) cfg.buzzer_beater_weight hbb
  have ht1 := periodTerm_bounds (process_play_by_play_data (env.playByPlay gid))
    1 (cfg.pw1 * cfg.max_total_score) (mul_nonneg hpw1 hmp)
  have ht2 := periodTerm_bounds (process_play_by_play_data (env.playByPlay gid))
    2 (cfg.pw2 * cfg.max_total_score) (mul_nonneg hpw2 hmp)
  have ht3 := periodTerm_bounds (process_play_by_play_data (env.playByPlay gid))
    3 (cfg.pw3 * cfg.max_total_score) (mul_nonneg hpw3 hmp)
  have ht4 := periodTerm_bounds (process_play_by_play_data (env.playByPlay gid))
    4 (cfg.pw4 * cfg.max_total_score) (mul_nonneg hpw4 hmp)
  have hps : (gameScores cfg env gid).period_score_total =
      periodTerm (process_play_by_play_data (env.playByPlay gid)) 1
        (cfg.pw1 * cfg.max_total_score) +
      (periodTerm (process_play_by_play_data (env.playByPlay gid)) 2
        (cfg.pw2 * cfg.max_total_score) +
      (periodTerm (process_play_by_play_data (env.playByPlay gid)) 3
        (cfg.pw3 * cfg.max_total_score) +
      (periodTerm (process_play_by_play_data (env.playByPlay gid)) 4
        (cfg.pw4 * cfg.max_total_score) + 0))) := by
    simp [gameScores, adjustedPeriodWeights]
  have hpsb : 0 ≤ (gameScores cfg env gid).period_score_total ∧
      (gameScores cfg env gid).period_score_total ≤
        (cfg.pw1 + cfg.pw2 + cfg.pw3 + cfg.pw4) * cfg.max_total_score * 100 := by
    rw [hps]
    constructor
    · linarith [ht1.1, ht2.1, ht3.1, ht4.1]
    · nlinarith [ht1.2, ht2.2, ht3.2, ht4.2]
  have hexb : 0 ≤ (gameScores cfg env gid).extra_periods_score ∧
      (gameScores cfg env gid).extra_periods_score ≤
        cfg.extra_period_weight * 100 := by
    have heq : (gameScores cfg env gid).extra_periods_score =
        (match maxPeriod (process_play_by_play_data (env.playByPlay gid)) with
         | some n => if 4 < n then cfg.extra_period_weight * 100 else 0
         | none => 0) := rfl
    rw [heq]
    cases maxPeriod (process_play_by_play_data (env.playByPlay gid)) with
    | none => exact ⟨le_rfl, by positivity⟩
    | some n =>
      dsimp only
      split_ifs
      · exact ⟨by positivity, le_rfl⟩
      · exact ⟨le_rfl, by positivity⟩
  have hlceq : (gameScores cfg env gid).lead_changes_score =
      (calculate_lead_changes_score
        (process_play_by_play_data (env.playByPlay gid))
        cfg.lead_change_weight).2 := rfl
  have hbbeq : (gameScores cfg env gid).buzzer_beater_score =
      (calculate_buzzer_beater_score
        (process_play_by_play_data (env.playByPlay gid))
        cfg.buzzer_beater_weight).2 := rfl
  have hfgeq : (gameScores cfg env gid).fg3_pct_score =
      (get_fg_fg3_pct_score env.recentGames gid cfg.fg3_pct_weight).2.2 := rfl
  have hmgeq : (gameScores cfg env gid).margin_score =
      (calculate_margin_and_star_performance_score env
        (process_play_by_play_data (env.playByPlay gid)) gid
        cfg.margin_weight cfg.star_performance_weight).2.2.1 := rfl
  have hsteq : (gameScores cfg env gid).star_performance_score =
      (calculate_margin_and_star_performance_score env
        (process_play_by_play_data (env.playByPlay gid)) gid
        cfg.margin_weight cfg.star_performance_weight).2.2.2.2 := rfl
  have htot : rawTotal cfg env gid =
      rqAdd (rqAdd (rqAdd (some ((gameScores cfg env gid).period_score_total +
        (gameScores cfg env gid).extra_periods_score +
        (gameScores cfg env gid).lead_changes_score +
        (gameScores cfg env gid).buzzer_beater_score))
        (gameScores cfg env gid).fg3_pct_score)
        (gameScores cfg env gid).margin_score)
        (gameScores cfg env gid).star_performance_score := rfl
  rw [← hfgeq] at hbfg
  rw [← hmgeq] at hbmg
  rw [← hsteq] at hbst
  have hlcb2 : 0 ≤ (gameScores cfg env gid).lead_changes_score ∧
      (gameScores cfg env gid).lead_changes_score ≤
        cfg.lead_change_weight * 100 := by
    rw [hlceq]
    exact hlcb
  have hbbb2 : 0 ≤ (gameScores cfg env gid).buzzer_beater_score ∧
      (gameScores cfg env gid).buzzer_beater_score ≤
        cfg.buzzer_beater_weight * 100 := by
    rw [hbbeq]
    exact hbbb
  have htot2 : rawTotal cfg env gid =
      some ((gameScores cfg env gid).period_score_total +
        (gameScores cfg env gid).extra_periods_score +
        (gameScores cfg env gid).lead_changes_score +
        (gameScores cfg env gid).buzzer_beater_score + bfg + bmg + bst) := by
    rw [htot, hbfg, hbmg, hbst]
    simp [rqAdd]
  refine ⟨_, htot2, ?_, ?_, hpsb.1, hpsb.2, hexb.1, hexb.2,
    hlcb2.1, hlcb2.2, hbbb2.1, hbbb2.2,
    ⟨bfg, hbfg, hbfg0, hbfgle⟩, ⟨bmg, hbmg, hbmg0, hbmgle⟩,
    ⟨bst, hbst, hbst0, hbstle⟩⟩
  · linarith [hpsb.1, hexb.1, hlcb2.1, hbbb2.1, hbfg0, hbmg0, hbst0]
  · have hsum100 : (cfg.pw1 + cfg.pw2 + cfg.pw3 + cfg.pw4) *
        cfg.max_total_score * 100 + cfg.extra_period_weight * 100 +
        cfg.lead_change_weight * 100 + cfg.buzzer_beater_weight * 100 +
        cfg.fg3_pct_weight * 100 + cfg.star_performance_weight * 100 +
        cfg.margin_weight * 100 = 100 := by
      linear_combination 100 * hsum
    linarith [hpsb.2, hexb.2, hlcb2.2, hbbb2.2,
      hbfgle, hbmgle, hbstle, hsum100]

/-- C1 witness: the bound theorem applied to the shipped `WEIGHT_CONFIG`
(whose weights sum to 1) and the concrete game A. -/
theorem C1_total_score_in_range_witness :
    ∃ t : ℚ, rawTotal WEIGHT_CONFIG envA "G1" = some t ∧ 0 ≤ t ∧ t ≤ 100 := by
  obtain ⟨t, h1, h2, h3, -⟩ := C1_total_score_in_range WEIGHT_CONFIG envA "G1"
    (by norm_num [WEIGHT_CONFIG]) (by norm_num [WEIGHT_CONFIG])
    (by norm_num [WEIGHT_CONFIG]) (by norm_num [WEIGHT_CONFIG])
    (by norm_num [WEIGHT_CONFIG]) (by norm_num [WEIGHT_CONFIG])
    (by norm_num [WEIGHT_CONFIG]) (by norm_num [WEIGHT_CONFIG])
    (by norm_num [WEIGHT_CONFIG]) (by norm_num [WEIGHT_CONFIG])
    (by norm_num [WEIGHT_CONFIG]) (by norm_num [WEIGHT_CONFIG])
    (by decide)
  exact ⟨t, h1, h2, h3⟩

end NBA
